import Mathlib

/-!
Verification of the microMONET protocol client (`src/mimo.py`).

The serial transport (aioserial) is modelled as an explicit state carrying
the bytes still available to read, the bytes written so far, whether the
port has been closed, and a counter of attempted transport writes.  Each
`MicroMONET` method becomes a function from `SerialState` to an `Outcome`:
a returned value with the successor state, a raised error with the state at
the raise site, or `blocked` when the Python code would block forever
waiting for a newline that never arrives.

Python `float` values parsed out of responses are modelled as exact
rationals (`ℚ`); the `[\d.]+` digit strings appearing in the protocol are
plain non-negative decimals, so their values are exactly representable.
-/

namespace MicroMONET

/-- A byte string, as a list of characters (the protocol is ASCII text). -/
abbrev Bytes := List Char

/-- State of the serial transport owned by the client: the unread incoming
bytes, the log of written bytes, whether `close()` has been called, and how
many transport writes have been attempted (counted even when they fail). -/
structure SerialState where
  inp : Bytes
  out : Bytes
  closed : Bool
  writeAttempts : Nat
deriving Repr, DecidableEq

/-- The kinds of errors a client call can raise.  `parse` and `floatConv`
are the two distinct `ValueError` sites in the Python code: the explicit
`raise ValueError(f"Invalid ... response: ...")` carrying the raw response,
and the `ValueError` raised by `float()` itself carrying only the matched
group text.  `validation` is the `set_speed` range check.  `transport` is a
failure raised by the serial layer (e.g. writing to a closed port).
`closedResource` is the error the spec recommends for use-after-close; the
code never raises it. -/
inductive Err where
  | parse (msg : Bytes)
  | floatConv (text : Bytes)
  | validation (msg : Bytes)
  | transport
  | closedResource
deriving Repr, DecidableEq

/-- Result of running a client operation from a given transport state. -/
inductive Outcome (α : Type) where
  | ok : α → SerialState → Outcome α
  | err : Err → SerialState → Outcome α
  | blocked : Outcome α
deriving Repr, DecidableEq

/-- Transport write (`aioserial.write_async`): records the attempt, then
fails with a transport error if the port is closed, else appends the bytes
to the output log. -/
def writeAsync (data : Bytes) (s : SerialState) : Outcome Unit :=
  let s1 : SerialState := { s with writeAttempts := s.writeAttempts + 1 }
  if s1.closed then .err .transport s1
  else .ok () { s1 with out := s1.out ++ data }

/-- Split the incoming bytes at the first newline: returns the chunk up to
and including the newline, and the remainder; `none` when no newline is
present (the read would block forever). -/
def splitAtNewline : Bytes → Option (Bytes × Bytes)
  | [] => none
  | c :: cs =>
    if c = '\n' then some ([c], cs)
    else
      match splitAtNewline cs with
      | some (line, rest) => some (c :: line, rest)
      | none => none

/-- Transport read (`aioserial.read_until_async(b"\n")`): fails on a closed
port, blocks when no newline is available, else consumes and returns the
next newline-terminated chunk (newline included, as in pyserial). -/
def readUntilNewline (s : SerialState) : Outcome Bytes :=
  if s.closed then .err .transport s
  else
    match splitAtNewline s.inp with
    | some (line, rest) => .ok line { s with inp := rest }
    | none => .blocked

/-- The whitespace characters stripped by Python `str.strip()` (the ASCII
ones; the protocol is ASCII). -/
def isPySpace (c : Char) : Bool :=
  c = ' ' || c = '\t' || c = '\n' || c = '\r' || c = '\x0b' || c = '\x0c'

/-- Python `str.strip()`: drop trailing then leading whitespace. -/
def pyStrip (l : Bytes) : Bytes :=
  ((l.reverse.dropWhile isPySpace).reverse).dropWhile isPySpace

/-- Does the pattern occur at the start of the list?  (Bool-valued list
matching used by the regex model.) -/
def startsWithB : Bytes → Bytes → Bool
  | [], _ => true
  | _ :: _, [] => false
  | a :: as, b :: bs => a = b && startsWithB as bs

/-- Python `in` on strings: does `pat` occur contiguously in `hay`? -/
def containsSub : Bytes → Bytes → Bool
  | [], pat => startsWithB pat []
  | h :: t, pat => startsWithB pat (h :: t) || containsSub t pat

/-- `MicroMONET.send_command`: write `command + "\n"` to the transport,
read the next newline-terminated line, return it stripped. -/
def send_command (command : Bytes) (s : SerialState) : Outcome Bytes :=
  match writeAsync (command ++ ['\n']) s with
  | .ok _ s1 =>
    match readUntilNewline s1 with
    | .ok resp s2 => .ok (pyStrip resp) s2
    | .err e s2 => .err e s2
    | .blocked => .blocked
  | .err e s1 => .err e s1
  | .blocked => .blocked

/-- The readiness sentinel line content tested by `wait_for_ready`. -/
def readyPhrase : Bytes := "microMONET is ready for some stargazing!".toList

theorem splitAtNewline_shrinks (l line rest : Bytes)
    (h : splitAtNewline l = some (line, rest)) : rest.length < l.length := by
  induction l generalizing line rest with
  | nil => simp [splitAtNewline] at h
  | cons c cs ih =>
    simp only [splitAtNewline] at h
    by_cases hc : c = '\n'
    · simp [hc] at h
      simp [← h.2]
    · simp only [hc, if_false] at h
      cases hcs : splitAtNewline cs with
      | none => simp [hcs] at h
      | some p =>
        obtain ⟨ln, rs⟩ := p
        simp [hcs] at h
        have := ih ln rs hcs
        simp [← h.2]
        omega

theorem readUntilNewline_shrinks (s : SerialState) (line : Bytes) (s1 : SerialState)
    (h : readUntilNewline s = .ok line s1) : s1.inp.length < s.inp.length := by
  unfold readUntilNewline at h
  by_cases hc : s.closed
  · simp [hc] at h
  · simp only [hc, Bool.false_eq_true, if_false] at h
    cases hs : splitAtNewline s.inp with
    | none => simp [hs] at h
    | some p =>
      obtain ⟨ln, rs⟩ := p
      simp [hs] at h
      have := splitAtNewline_shrinks s.inp ln rs hs
      rw [← h.2]
      simpa using this

/-- `MicroMONET.wait_for_ready`: keep reading lines until one whose
stripped content contains the readiness phrase, then return.  No command is
sent. -/
def wait_for_ready (s : SerialState) : Outcome Unit :=
  match h : readUntilNewline s with
  | .ok line s1 =>
    if containsSub (pyStrip line) readyPhrase then .ok () s1
    else wait_for_ready s1
  | .err e s1 => .err e s1
  | .blocked => .blocked
termination_by s.inp.length
decreasing_by
  exact readUntilNewline_shrinks s line s1 h

/-- The character class `[\d.]` of the numeric fields. -/
def isDigitDot (c : Char) : Bool := c.isDigit || c = '.'

/-- Match a literal at the start of the input; on success return the rest.
Models a literal segment of an anchored `re.match` pattern. -/
def matchLit (lit l : Bytes) : Option Bytes :=
  if startsWithB lit l then some (l.drop lit.length) else none

/-- Model of `re.match(head + r"([\d.]+) AZ: ([\d.]+)", resp)`: the literal
head, a maximal nonempty run of `[\d.]`, the literal " AZ: ", a maximal
nonempty run of `[\d.]`; trailing content ignored.  Greedy maximal-run
matching coincides with regex backtracking semantics here because the
character after a shortened run would be in `[\d.]` and hence could not
match the space that the following literal requires. -/
def parseAltAz (headLit resp : Bytes) : Option (Bytes × Bytes) :=
  match matchLit headLit resp with
  | none => none
  | some r1 =>
    let g1 := r1.takeWhile isDigitDot
    if g1 = [] then none
    else
      match matchLit " AZ: ".toList (r1.dropWhile isDigitDot) with
      | none => none
      | some r2 =>
        let g2 := r2.takeWhile isDigitDot
        if g2 = [] then none else some (g1, g2)

/-- The two position grammars of `get_position`, tried in order: the
normal report, then the aborted-slew report. -/
def posGrammar (resp : Bytes) : Option (Bytes × Bytes) :=
  match parseAltAz "ALT: ".toList resp with
  | some r => some r
  | none => parseAltAz "Aborted at ALT: ".toList resp

/-- Model of `re.match(head + r"([\d.]+)", resp)` for the scalar sensor
grammars: literal head then a maximal nonempty `[\d.]` run, trailing
content ignored. -/
def parseScalar (headLit resp : Bytes) : Option Bytes :=
  match matchLit headLit resp with
  | none => none
  | some r1 =>
    let g := r1.takeWhile isDigitDot
    if g = [] then none else some g

/-- Value of a decimal digit string. -/
def digitsToNat (l : Bytes) : Nat :=
  l.foldl (fun a c => a * 10 + (c.toNat - 48)) 0

/-- Python `float()` applied to a `[\d.]+` group: succeeds exactly when the
text is digits and dots with at least one digit and at most one dot, and
then denotes the exact decimal value (as a rational). -/
def floatOfNum (g : Bytes) : Option ℚ :=
  if g.all isDigitDot && g.any (fun c => c.isDigit) && decide (g.count '.' ≤ 1) then
    let ip := g.takeWhile (fun c => c ≠ '.')
    let fp := (g.dropWhile (fun c => c ≠ '.')).drop 1
    some (mkRat (digitsToNat (ip ++ fp)) (10 ^ fp.length))
  else none

/-- The anchored literal head of the temperature grammar. -/
def tempPat : Bytes := "Temperature: ".toList

/-- The anchored literal head of the humidity grammar. -/
def humiPat : Bytes := "Humidity: ".toList

/-- Message of the `ValueError` raised when no position grammar matches. -/
def posErrMsg (resp : Bytes) : Bytes := "Invalid position response: ".toList ++ resp

/-- Message of the `ValueError` raised when the temperature grammar does
not match. -/
def tempErrMsg (resp : Bytes) : Bytes := "Invalid temperature response: ".toList ++ resp

/-- Message of the `ValueError` raised when the humidity grammar does not
match. -/
def humiErrMsg (resp : Bytes) : Bytes := "Invalid humidity response: ".toList ++ resp

/-- `MicroMONET.get_position`: send `GET_POS`, try the two position
grammars in order, convert both groups with `float()`, or raise the parse
`ValueError` carrying the raw response. -/
def get_position (s : SerialState) : Outcome (ℚ × ℚ) :=
  match send_command "GET_POS".toList s with
  | .ok resp s1 =>
    match posGrammar resp with
    | some (g1, g2) =>
      match floatOfNum g1 with
      | none => .err (.floatConv g1) s1
      | some a =>
        match floatOfNum g2 with
        | none => .err (.floatConv g2) s1
        | some z => .ok (a, z) s1
    | none => .err (.parse (posErrMsg resp)) s1
  | .err e s1 => .err e s1
  | .blocked => .blocked

/-- `MicroMONET.set_position`: format `ALT:<altitude> AZ:<azimuth>` and
send it, discarding the response.  Python formats the two floats with its
default repr; that numeric-to-text formatting is abstracted as the
parameter `fmt`, since binary floating-point formatting has no exact
shallow embedding over ℚ. -/
def set_position (fmt : ℚ → Bytes) (altitude azimuth : ℚ) (s : SerialState) : Outcome Unit :=
  match send_command ("ALT:".toList ++ fmt altitude ++ " AZ:".toList ++ fmt azimuth) s with
  | .ok _ s1 => .ok () s1
  | .err e s1 => .err e s1
  | .blocked => .blocked

/-- Message of the `ValueError` raised by the `set_speed` range check. -/
def speedErrMsg : Bytes := "Speed must be between 1 and 15 RPM.".toList

/-- `MicroMONET.set_speed`: validate `1 <= speed <= 15` before any
transport call, then send `SET_SPEED <speed>`, discarding the response. -/
def set_speed (speed : ℤ) (s : SerialState) : Outcome Unit :=
  if speed < 1 || 15 < speed then .err (.validation speedErrMsg) s
  else
    match send_command ("SET_SPEED ".toList ++ (toString speed).toList) s with
    | .ok _ s1 => .ok () s1
    | .err e s1 => .err e s1
    | .blocked => .blocked

/-- `MicroMONET.get_temperature`: send `GET_TEMP`, parse
`Temperature: ([\d.]+)` anchored at line start, convert with `float()`, or
raise the parse `ValueError` carrying the raw response. -/
def get_temperature (s : SerialState) : Outcome ℚ :=
  match send_command "GET_TEMP".toList s with
  | .ok resp s1 =>
    match parseScalar tempPat resp with
    | some g =>
      match floatOfNum g with
      | some v => .ok v s1
      | none => .err (.floatConv g) s1
    | none => .err (.parse (tempErrMsg resp)) s1
  | .err e s1 => .err e s1
  | .blocked => .blocked

/-- `MicroMONET.get_humidity`: send `GET_HUMI`, parse `Humidity: ([\d.]+)`
anchored at line start, convert with `float()`, or raise the parse
`ValueError` carrying the raw response. -/
def get_humidity (s : SerialState) : Outcome ℚ :=
  match send_command "GET_HUMI".toList s with
  | .ok resp s1 =>
    match parseScalar humiPat resp with
    | some g =>
      match floatOfNum g with
      | some v => .ok v s1
      | none => .err (.floatConv g) s1
    | none => .err (.parse (humiErrMsg resp)) s1
  | .err e s1 => .err e s1
  | .blocked => .blocked

/-- `MicroMONET.close`: close the serial port.  The client keeps no flag of
its own; closing is purely a transport-state change. -/
def close (s : SerialState) : Outcome Unit := .ok () { s with closed := true }

theorem splitAtNewline_append (line rest : Bytes) (h : '\n' ∉ line) :
    splitAtNewline (line ++ '\n' :: rest) = some (line ++ ['\n'], rest) := by
  induction line with
  | nil => simp [splitAtNewline]
  | cons c cs ih =>
    have hc : c ≠ '\n' := by
      intro e
      exact h (by simp [e])
    have h2 : '\n' ∉ cs := fun m => h (List.mem_cons_of_mem _ m)
    simp [splitAtNewline, hc, ih h2]

theorem pyStrip_newline (l : Bytes) : pyStrip (l ++ ['\n']) = pyStrip l := by
  unfold pyStrip
  simp [List.reverse_append, List.dropWhile_cons, isPySpace]

theorem startsWithB_append (a b : Bytes) : startsWithB a (a ++ b) = true := by
  induction a with
  | nil => rfl
  | cons c cs ih => simp [startsWithB, ih]

theorem startsWithB_refl (l : Bytes) : startsWithB l l = true := by
  simpa using startsWithB_append l []

theorem containsSub_append_self (a b : Bytes) : containsSub (a ++ b) b = true := by
  induction a with
  | nil =>
    cases b with
    | nil => rfl
    | cons c cs => simp [containsSub, startsWithB_refl]
  | cons c cs ih => simp [containsSub, ih]

theorem matchLit_append (a b : Bytes) : matchLit a (a ++ b) = some b := by
  simp [matchLit, startsWithB_append]

theorem takeWhile_append_all (p : Char → Bool) (l r : Bytes) (h : ∀ c ∈ l, p c = true) :
    (l ++ r).takeWhile p = l ++ r.takeWhile p := by
  induction l with
  | nil => simp
  | cons c cs ih =>
    have hc := h c (by simp)
    simp [List.takeWhile_cons, hc, ih (fun x hx => h x (by simp [hx]))]

theorem dropWhile_append_all (p : Char → Bool) (l r : Bytes) (h : ∀ c ∈ l, p c = true) :
    (l ++ r).dropWhile p = r.dropWhile p := by
  induction l with
  | nil => simp
  | cons c cs ih =>
    have hc := h c (by simp)
    simp [List.dropWhile_cons, hc, ih (fun x hx => h x (by simp [hx]))]

/-- Behaviour of one full command/response exchange on an open transport
whose next incoming line is `line` (newline-free) followed by `rest`:
exactly `command + "\n"` is appended to the output, exactly that one line
is consumed, and the stripped line is returned. -/
theorem send_command_spec (cmd line rest : Bytes) (s : SerialState)
    (hopen : s.closed = false) (hline : '\n' ∉ line)
    (hinp : s.inp = line ++ '\n' :: rest) :
    send_command cmd s =
      .ok (pyStrip line)
        { s with inp := rest, out := s.out ++ (cmd ++ ['\n']),
                 writeAttempts := s.writeAttempts + 1 } := by
  unfold send_command writeAsync readUntilNewline
  simp [hopen, hinp, splitAtNewline_append _ _ hline, pyStrip_newline]

/-- Run of `get_position` on an open transport when the stripped response
matches a position grammar with groups `g1`, `g2` whose `float()`
conversions succeed. -/
theorem get_position_run (line rest g1 g2 : Bytes) (a z : ℚ) (s : SerialState)
    (hopen : s.closed = false) (hline : '\n' ∉ line)
    (hinp : s.inp = line ++ '\n' :: rest)
    (hg : posGrammar (pyStrip line) = some (g1, g2))
    (ha : floatOfNum g1 = some a) (hz : floatOfNum g2 = some z) :
    get_position s =
      .ok (a, z)
        { s with inp := rest, out := s.out ++ ("GET_POS".toList ++ ['\n']),
                 writeAttempts := s.writeAttempts + 1 } := by
  unfold get_position
  rw [send_command_spec _ _ _ _ hopen hline hinp]
  simp [hg, ha, hz]

/-- Run of `get_position` on an open transport when the stripped response
matches neither position grammar. -/
theorem get_position_run_err (line rest : Bytes) (s : SerialState)
    (hopen : s.closed = false) (hline : '\n' ∉ line)
    (hinp : s.inp = line ++ '\n' :: rest)
    (hg : posGrammar (pyStrip line) = none) :
    get_position s =
      .err (.parse (posErrMsg (pyStrip line)))
        { s with inp := rest, out := s.out ++ ("GET_POS".toList ++ ['\n']),
                 writeAttempts := s.writeAttempts + 1 } := by
  unfold get_position
  rw [send_command_spec _ _ _ _ hopen hline hinp]
  simp [hg]

/-- C1: `send_command` writes exactly the command bytes followed by one
newline, blocks until the next newline-terminated line arrives, consumes
exactly that line, and returns it stripped of leading and trailing
whitespace and otherwise unmodified. -/
theorem send_command_exact_exchange (cmd line rest : Bytes) (s : SerialState)
    (hopen : s.closed = false) (hline : '\n' ∉ line)
    (hinp : s.inp = line ++ '\n' :: rest) :
    send_command cmd s =
      .ok (pyStrip line)
        { s with inp := rest, out := s.out ++ (cmd ++ ['\n']),
                 writeAttempts := s.writeAttempts + 1 } :=
  send_command_spec cmd line rest s hopen hline hinp

/-- Witness for C1: `send_command "LED_ON"` writes exactly `LED_ON\n` and
returns the next line `"  OK  "` stripped to `"OK"`. -/
theorem send_command_exact_exchange_witness :
    send_command "LED_ON".toList ⟨"  OK  \n".toList, [], false, 0⟩ =
      .ok "OK".toList ⟨[], "LED_ON\n".toList, false, 1⟩ := by
  have h := send_command_exact_exchange "LED_ON".toList "  OK  ".toList []
    ⟨"  OK  \n".toList, [], false, 0⟩ rfl (by decide) (by decide)
  exact h.trans (by decide)

/-- C2: `get_position` sends `GET_POS` and accepts both position grammars,
tried in order and anchored at line start; whenever one matches and the two
matched numbers convert, it returns the `(altitude, azimuth)` pair of their
values, ignoring trailing content. -/
theorem get_position_two_grammars (line rest g1 g2 : Bytes) (a z : ℚ) (s : SerialState)
    (hopen : s.closed = false) (hline : '\n' ∉ line)
    (hinp : s.inp = line ++ '\n' :: rest)
    (hg : posGrammar (pyStrip line) = some (g1, g2))
    (ha : floatOfNum g1 = some a) (hz : floatOfNum g2 = some z) :
    get_position s =
      .ok (a, z)
        { s with inp := rest, out := s.out ++ ("GET_POS".toList ++ ['\n']),
                 writeAttempts := s.writeAttempts + 1 } :=
  get_position_run line rest g1 g2 a z s hopen hline hinp hg ha hz

/-- Witness for C2: `ALT: 45.0 AZ: 90.0` parses to `(45, 90)` and
`Aborted at ALT: 39.90 AZ: 246.45` parses to `(39.9, 246.45)`. -/
theorem get_position_two_grammars_witness :
    get_position ⟨"ALT: 45.0 AZ: 90.0\n".toList, [], false, 0⟩ =
      .ok (45, 90) ⟨[], "GET_POS\n".toList, false, 1⟩ ∧
    get_position ⟨"Aborted at ALT: 39.90 AZ: 246.45\n".toList, [], false, 0⟩ =
      .ok (mkRat 399 10, mkRat 4929 20) ⟨[], "GET_POS\n".toList, false, 1⟩ := by
  constructor
  · have h := get_position_two_grammars "ALT: 45.0 AZ: 90.0".toList []
      "45.0".toList "90.0".toList 45 90 ⟨"ALT: 45.0 AZ: 90.0\n".toList, [], false, 0⟩
      rfl (by decide) (by decide) (by decide) (by decide) (by decide)
    exact h.trans (by decide)
  · have h := get_position_two_grammars "Aborted at ALT: 39.90 AZ: 246.45".toList []
      "39.90".toList "246.45".toList (mkRat 399 10) (mkRat 4929 20)
      ⟨"Aborted at ALT: 39.90 AZ: 246.45\n".toList, [], false, 0⟩
      rfl (by decide) (by decide) (by decide) (by decide) (by decide)
    exact h.trans (by decide)

/-- C3: when the response matches neither position grammar, `get_position`
raises the parse `ValueError` whose message contains the raw response text
as a substring. -/
theorem get_position_mismatch_parse_error (line rest : Bytes) (s : SerialState)
    (hopen : s.closed = false) (hline : '\n' ∉ line)
    (hinp : s.inp = line ++ '\n' :: rest)
    (hg : posGrammar (pyStrip line) = none) :
    get_position s =
      .err (.parse (posErrMsg (pyStrip line)))
        { s with inp := rest, out := s.out ++ ("GET_POS".toList ++ ['\n']),
                 writeAttempts := s.writeAttempts + 1 } ∧
    containsSub (posErrMsg (pyStrip line)) (pyStrip line) = true := by
  refine ⟨get_position_run_err line rest s hopen hline hinp hg, ?_⟩
  unfold posErrMsg
  exact containsSub_append_self _ _

/-- Witness for C3: on response `garbage` the result is the parse error
whose message contains `garbage`. -/
theorem get_position_mismatch_parse_error_witness :
    get_position ⟨"garbage\n".toList, [], false, 0⟩ =
      .err (.parse "Invalid position response: garbage".toList)
        ⟨[], "GET_POS\n".toList, false, 1⟩ ∧
    containsSub "Invalid position response: garbage".toList "garbage".toList = true := by
  have h := get_position_mismatch_parse_error "garbage".toList []
    ⟨"garbage\n".toList, [], false, 0⟩ rfl (by decide) (by decide) (by decide)
  exact ⟨h.1.trans (by decide), by decide⟩

/-- C4: `set_speed` range-checks before any transport interaction: out of
`[1, 15]` it raises the validation error with the transport state fully
untouched (zero writes attempted); in range it performs exactly one
exchange whose written bytes are `SET_SPEED <rpm>` plus the newline. -/
theorem set_speed_validates (speed : ℤ) (line rest : Bytes) (s : SerialState)
    (hopen : s.closed = false) (hline : '\n' ∉ line)
    (hinp : s.inp = line ++ '\n' :: rest) :
    ((speed < 1 ∨ 15 < speed) → set_speed speed s = .err (.validation speedErrMsg) s) ∧
    (1 ≤ speed → speed ≤ 15 →
      set_speed speed s =
        .ok ()
          { s with inp := rest,
                   out := s.out ++ ("SET_SPEED ".toList ++ (toString speed).toList ++ ['\n']),
                   writeAttempts := s.writeAttempts + 1 }) := by
  constructor
  · intro hout
    unfold set_speed
    have hb : (speed < 1 || 15 < speed) = true := by
      rcases hout with h | h <;> simp [h]
    simp [hb]
  · intro h1 h15
    unfold set_speed
    have hb : (speed < 1 || 15 < speed) = false := by
      simp only [Bool.or_eq_false_iff, decide_eq_false_iff_not, not_lt]
      omega
    rw [hb]
    simp only [Bool.false_eq_true, if_false]
    rw [send_command_spec _ _ _ _ hopen hline hinp]

/-- Witness for C4: `set_speed 0` fails with the validation error leaving
the transport untouched, while `set_speed 1` and `set_speed 15` send
exactly `SET_SPEED 1\n` and `SET_SPEED 15\n`. -/
theorem set_speed_validates_witness :
    set_speed 0 ⟨"OK\n".toList, [], false, 0⟩ =
      .err (.validation speedErrMsg) ⟨"OK\n".toList, [], false, 0⟩ ∧
    set_speed 1 ⟨"OK\n".toList, [], false, 0⟩ =
      .ok () ⟨[], "SET_SPEED 1\n".toList, false, 1⟩ ∧
    set_speed 15 ⟨"OK\n".toList, [], false, 0⟩ =
      .ok () ⟨[], "SET_SPEED 15\n".toList, false, 1⟩ := by
  refine ⟨?_, ?_, ?_⟩
  · exact (set_speed_validates 0 "OK".toList [] ⟨"OK\n".toList, [], false, 0⟩
      rfl (by decide) (by decide)).1 (Or.inl (by decide))
  · exact ((set_speed_validates 1 "OK".toList [] ⟨"OK\n".toList, [], false, 0⟩
      rfl (by decide) (by decide)).2 (by decide) (by decide)).trans (by decide)
  · exact ((set_speed_validates 15 "OK".toList [] ⟨"OK\n".toList, [], false, 0⟩
      rfl (by decide) (by decide)).2 (by decide) (by decide)).trans (by decide)

/-- C7: `get_temperature` sends `GET_TEMP` and `get_humidity` sends
`GET_HUMI`; each parses the stripped response against its anchored grammar
(trailing content ignored), returns the parsed value on a match whose
number converts, and raises the parse `ValueError` containing the raw
response on a mismatch. -/
theorem sensor_readings_spec (line rest : Bytes) (s : SerialState)
    (hopen : s.closed = false) (hline : '\n' ∉ line)
    (hinp : s.inp = line ++ '\n' :: rest) :
    (∀ g v, parseScalar tempPat (pyStrip line) = some g →
      floatOfNum g = some v →
      get_temperature s =
        .ok v { s with inp := rest, out := s.out ++ ("GET_TEMP".toList ++ ['\n']),
                       writeAttempts := s.writeAttempts + 1 }) ∧
    (parseScalar tempPat (pyStrip line) = none →
      get_temperature s =
        .err (.parse (tempErrMsg (pyStrip line)))
          { s with inp := rest, out := s.out ++ ("GET_TEMP".toList ++ ['\n']),
                   writeAttempts := s.writeAttempts + 1 } ∧
      containsSub (tempErrMsg (pyStrip line)) (pyStrip line) = true) ∧
    (∀ g v, parseScalar humiPat (pyStrip line) = some g →
      floatOfNum g = some v →
      get_humidity s =
        .ok v { s with inp := rest, out := s.out ++ ("GET_HUMI".toList ++ ['\n']),
                       writeAttempts := s.writeAttempts + 1 }) ∧
    (parseScalar humiPat (pyStrip line) = none →
      get_humidity s =
        .err (.parse (humiErrMsg (pyStrip line)))
          { s with inp := rest, out := s.out ++ ("GET_HUMI".toList ++ ['\n']),
                   writeAttempts := s.writeAttempts + 1 } ∧
      containsSub (humiErrMsg (pyStrip line)) (pyStrip line) = true) := by
  refine ⟨?_, ?_, ?_, ?_⟩
  · intro g v hg hv
    unfold get_temperature
    rw [send_command_spec _ _ _ _ hopen hline hinp]
    simp only [hg, hv]
  · intro hg
    constructor
    · unfold get_temperature
      rw [send_command_spec _ _ _ _ hopen hline hinp]
      simp [hg]
    · unfold tempErrMsg
      exact containsSub_append_self _ _
  · intro g v hg hv
    unfold get_humidity
    rw [send_command_spec _ _ _ _ hopen hline hinp]
    simp only [hg, hv]
  · intro hg
    constructor
    · unfold get_humidity
      rw [send_command_spec _ _ _ _ hopen hline hinp]
      simp [hg]
    · unfold humiErrMsg
      exact containsSub_append_self _ _

/-- Witness for C7: `Temperature: 25.0 °C` yields `25`, `Humidity: 50.0 %`
yields `50`, and `Temp: 25` yields the parse error carrying the raw
text. -/
theorem sensor_readings_spec_witness :
    get_temperature ⟨"Temperature: 25.0 °C\n".toList, [], false, 0⟩ =
      .ok 25 ⟨[], "GET_TEMP\n".toList, false, 1⟩ ∧
    get_humidity ⟨"Humidity: 50.0 %\n".toList, [], false, 0⟩ =
      .ok 50 ⟨[], "GET_HUMI\n".toList, false, 1⟩ ∧
    get_temperature ⟨"Temp: 25\n".toList, [], false, 0⟩ =
      .err (.parse "Invalid temperature response: Temp: 25".toList)
        ⟨[], "GET_TEMP\n".toList, false, 1⟩ := by
  refine ⟨?_, ?_, ?_⟩
  · have h := (sensor_readings_spec "Temperature: 25.0 °C".toList []
      ⟨"Temperature: 25.0 °C\n".toList, [], false, 0⟩ rfl (by decide) (by decide)).1
      "25.0".toList 25 (by decide) (by decide)
    exact h.trans (by decide)
  · have h := (sensor_readings_spec "Humidity: 50.0 %".toList []
      ⟨"Humidity: 50.0 %\n".toList, [], false, 0⟩ rfl (by decide) (by decide)).2.2.1
      "50.0".toList 50 (by decide) (by decide)
    exact h.trans (by decide)
  · have h := ((sensor_readings_spec "Temp: 25".toList []
      ⟨"Temp: 25\n".toList, [], false, 0⟩ rfl (by decide) (by decide)).2.1 (by decide)).1
    exact h.trans (by decide)

/-- C8: `set_position` sends exactly one command line of the shape
`ALT:<altitude> AZ:<azimuth>` built from the numeric formatting `fmt`,
consumes exactly the one response line, and returns without any further
transport traffic (no polling of position). -/
theorem set_position_single_exchange (fmt : ℚ → Bytes) (a z : ℚ)
    (line rest : Bytes) (s : SerialState)
    (hopen : s.closed = false) (hline : '\n' ∉ line)
    (hinp : s.inp = line ++ '\n' :: rest) :
    set_position fmt a z s =
      .ok ()
        { s with inp := rest,
                 out := s.out ++ ("ALT:".toList ++ fmt a ++ " AZ:".toList ++ fmt z ++ ['\n']),
                 writeAttempts := s.writeAttempts + 1 } := by
  unfold set_position
  rw [send_command_spec _ _ _ _ hopen hline hinp]

/-- Witness for C8: with a formatter sending `45.0` and `90.0`, exactly
`ALT:45.0 AZ:90.0\n` is written and the single acknowledgment line is
consumed. -/
theorem set_position_single_exchange_witness :
    set_position (fun q => if q = 45 then "45.0".toList else "90.0".toList) 45 90
      ⟨"OK\n".toList, [], false, 0⟩ =
      .ok () ⟨[], "ALT:45.0 AZ:90.0\n".toList, false, 1⟩ := by
  have h := set_position_single_exchange
    (fun q => if q = 45 then "45.0".toList else "90.0".toList) 45 90
    "OK".toList [] ⟨"OK\n".toList, [], false, 0⟩ rfl (by decide) (by decide)
  exact h.trans (by decide)

/-- Counterexample to C9: after `close()` the client does not raise a
closed-resource error without touching the transport; `send_command` still
attempts the transport write (the attempt counter increases) and the
failure that surfaces is the transport layer's own error. -/
theorem post_close_counterexample :
    close ⟨"OK\n".toList, [], false, 0⟩ = .ok () ⟨"OK\n".toList, [], true, 0⟩ ∧
    send_command "GET_POS".toList ⟨"OK\n".toList, [], true, 0⟩ =
      .err .transport ⟨"OK\n".toList, [], true, 1⟩ ∧
    Err.transport ≠ Err.closedResource := by
  refine ⟨rfl, by decide, by decide⟩

/-- C9 amended: the client has no closed-state check of its own; after
`close()` every `send_command` unconditionally attempts the transport
write and propagates the transport layer's error, never a client-level
closed-resource error. -/
theorem post_close_attempts_transport (cmd : Bytes) (s : SerialState)
    (hclosed : s.closed = true) :
    send_command cmd s = .err .transport { s with writeAttempts := s.writeAttempts + 1 } := by
  unfold send_command writeAsync
  simp [hclosed]

/-- Witness for the amended C9: a closed transport state on which
`send_command` yields the transport error with one more attempted
write. -/
theorem post_close_attempts_transport_witness :
    send_command "GET_TEMP".toList ⟨[], [], true, 5⟩ =
      .err .transport ⟨[], [], true, 6⟩ := by
  exact (post_close_attempts_transport "GET_TEMP".toList ⟨[], [], true, 5⟩ rfl).trans (by decide)

/-- C10: the `[\d.]+` numeric pattern accepts text `float()` rejects: on
`Temperature: .` and on `ALT: 1.2.3 AZ: 4.0` the grammar matches but the
conversion raises, so the operation neither returns a value nor raises the
parse `ValueError` that carries the raw response text. -/
theorem numeric_grammar_float_gap :
    get_temperature ⟨"Temperature: .\n".toList, [], false, 0⟩ =
      .err (.floatConv ".".toList) ⟨[], "GET_TEMP\n".toList, false, 1⟩ ∧
    get_position ⟨"ALT: 1.2.3 AZ: 4.0\n".toList, [], false, 0⟩ =
      .err (.floatConv "1.2.3".toList) ⟨[], "GET_POS\n".toList, false, 1⟩ := by
  exact ⟨by decide, by decide⟩

/-- Concatenate lines back into a newline-delimited byte stream. -/
def lineJoin : List Bytes → Bytes
  | [] => []
  | l :: ls => l ++ '\n' :: lineJoin ls

/-- C6: `wait_for_ready` sends nothing; it reads lines until the first
whose stripped content contains the readiness phrase, consuming exactly
the preceding non-matching lines and that matching line, and leaves every
byte after it unread for subsequent calls. -/
theorem wait_for_ready_consumes_exactly (pre : List Bytes) (m rest : Bytes)
    (s : SerialState) (hopen : s.closed = false)
    (hpre : ∀ l ∈ pre, '\n' ∉ l ∧ containsSub (pyStrip l) readyPhrase = false)
    (hm : '\n' ∉ m) (hmr : containsSub (pyStrip m) readyPhrase = true)
    (hinp : s.inp = lineJoin (pre ++ [m]) ++ rest) :
    wait_for_ready s = .ok () { s with inp := rest } := by
  induction pre generalizing s with
  | nil =>
    have hinp2 : s.inp = m ++ '\n' :: rest := by
      rw [hinp]
      simp [lineJoin]
    have hr : readUntilNewline s = .ok (m ++ ['\n']) { s with inp := rest } := by
      unfold readUntilNewline
      rw [hopen]
      simp only [Bool.false_eq_true, if_false, hinp2]
      rw [splitAtNewline_append _ _ hm]
    rw [wait_for_ready]
    split
    · rename_i line s1 heq
      rw [hr] at heq
      cases heq
      rw [pyStrip_newline, hmr]
      simp
    · rename_i e s1 heq
      rw [hr] at heq
      cases heq
    · rename_i heq
      rw [hr] at heq
      cases heq
  | cons l ls ih =>
    have hl := hpre l (by simp)
    have hinp2 : s.inp = l ++ '\n' :: (lineJoin (ls ++ [m]) ++ rest) := by
      rw [hinp]
      simp [lineJoin]
    have hr : readUntilNewline s =
        .ok (l ++ ['\n']) { s with inp := lineJoin (ls ++ [m]) ++ rest } := by
      unfold readUntilNewline
      rw [hopen]
      simp only [Bool.false_eq_true, if_false, hinp2]
      rw [splitAtNewline_append _ _ hl.1]
    rw [wait_for_ready]
    split
    · rename_i line s1 heq
      rw [hr] at heq
      cases heq
      rw [pyStrip_newline, hl.2]
      simp only [Bool.false_eq_true, if_false]
      have := ih { s with inp := lineJoin (ls ++ [m]) ++ rest } hopen
        (fun x hx => hpre x (List.mem_cons_of_mem _ hx)) rfl
      simpa using this
    · rename_i e s1 heq
      rw [hr] at heq
      cases heq
    · rename_i heq
      rw [hr] at heq
      cases heq

/-- Witness for C6: two boot lines precede the readiness line; both are
consumed together with the readiness line, the trailing `next\n` is left
unread, and nothing is written. -/
theorem wait_for_ready_consumes_exactly_witness :
    wait_for_ready
      ⟨"boot\nhello\nmicroMONET is ready for some stargazing!\nnext\n".toList, [], false, 0⟩ =
      .ok () ⟨"next\n".toList, [], false, 0⟩ := by
  have h := wait_for_ready_consumes_exactly ["boot".toList, "hello".toList]
    "microMONET is ready for some stargazing!".toList "next\n".toList
    ⟨"boot\nhello\nmicroMONET is ready for some stargazing!\nnext\n".toList, [], false, 0⟩
    rfl (by decide) (by decide) (by decide) (by decide)
  exact h.trans (by decide)

/-- Characters of the numeric class are not whitespace. -/
theorem pySpace_false_of_digitdot (c : Char) (h : isDigitDot c = true) :
    isPySpace c = false := by
  cases hs : isPySpace c
  · rfl
  · exfalso
    unfold isPySpace at hs
    simp only [Bool.or_eq_true, decide_eq_true_eq, or_assoc] at hs
    rcases hs with h1 | h1 | h1 | h1 | h1 | h1 <;> subst h1 <;> exact absurd h (by decide)

theorem dropWhile_eq_self_of_head (p : Char → Bool) (l : Bytes)
    (h : ∀ c, l.head? = some c → p c = false) : l.dropWhile p = l := by
  cases l with
  | nil => rfl
  | cons c t => simp [List.dropWhile_cons, h c rfl]

/-- Stripping is the identity on a line whose first and last characters
are not whitespace. -/
theorem pyStrip_eq_self (l : Bytes)
    (h1 : ∀ c, l.head? = some c → isPySpace c = false)
    (h2 : ∀ c, l.getLast? = some c → isPySpace c = false) : pyStrip l = l := by
  unfold pyStrip
  rw [dropWhile_eq_self_of_head isPySpace l.reverse
      (fun c hc => h2 c (by rwa [List.head?_reverse] at hc)),
    List.reverse_reverse, dropWhile_eq_self_of_head isPySpace l h1]

/-- A successful `float()` conversion certifies the character-class and
digit facts about its input. -/
theorem floatOfNum_facts (g : Bytes) (q : ℚ) (h : floatOfNum g = some q) :
    g.all isDigitDot = true ∧ g.any (fun c => c.isDigit) = true := by
  unfold floatOfNum at h
  by_cases hc : (g.all isDigitDot && g.any (fun c => c.isDigit) &&
      decide (g.count '.' ≤ 1)) = true
  · simp only [Bool.and_eq_true] at hc
    exact ⟨hc.1.1, hc.1.2⟩
  · rw [if_neg hc] at h
    cases h

theorem takeWhile_eq_self_all (p : Char → Bool) (l : Bytes)
    (h : ∀ c ∈ l, p c = true) : l.takeWhile p = l := by
  have := takeWhile_append_all p l [] h
  simpa using this

/-- C5: round-trip: a peer response `ALT: <d1> AZ: <d2>` built from any
numeric texts within the protocol grammar, denoting values `a` and `z`,
parses back through `get_position` to exactly `(a, z)`. -/
theorem position_format_parse_roundtrip (d1 d2 rest : Bytes) (a z : ℚ) (s : SerialState)
    (hopen : s.closed = false)
    (ha : floatOfNum d1 = some a) (hz : floatOfNum d2 = some z)
    (hinp : s.inp = ("ALT: ".toList ++ d1 ++ " AZ: ".toList ++ d2) ++ '\n' :: rest) :
    get_position s =
      .ok (a, z)
        { s with inp := rest, out := s.out ++ ("GET_POS".toList ++ ['\n']),
                 writeAttempts := s.writeAttempts + 1 } := by
  obtain ⟨hall1, hany1⟩ := floatOfNum_facts d1 a ha
  obtain ⟨hall2, hany2⟩ := floatOfNum_facts d2 z hz
  have hdd1 : ∀ c ∈ d1, isDigitDot c = true := List.all_eq_true.mp hall1
  have hdd2 : ∀ c ∈ d2, isDigitDot c = true := List.all_eq_true.mp hall2
  have hne1 : d1 ≠ [] := by
    intro e
    rw [e] at hany1
    cases hany1
  have hne2 : d2 ≠ [] := by
    intro e
    rw [e] at hany2
    cases hany2
  have hnl : '\n' ∉ ("ALT: ".toList ++ d1 ++ " AZ: ".toList ++ d2) := by
    intro hmem
    simp only [List.mem_append] at hmem
    rcases hmem with ((h | h) | h) | h
    · revert h
      decide
    · exact absurd (hdd1 _ h) (by decide)
    · revert h
      decide
    · exact absurd (hdd2 _ h) (by decide)
  have hstrip : pyStrip ("ALT: ".toList ++ d1 ++ " AZ: ".toList ++ d2) =
      "ALT: ".toList ++ d1 ++ " AZ: ".toList ++ d2 := by
    apply pyStrip_eq_self
    · intro c hc
      have hh : ("ALT: ".toList ++ d1 ++ " AZ: ".toList ++ d2).head? = some 'A' := rfl
      rw [hh] at hc
      injection hc with hc
      rw [← hc]
      decide
    · intro c hc
      rw [List.getLast?_append_of_ne_nil _ hne2] at hc
      obtain ⟨hne, hcl⟩ := List.mem_getLast?_eq_getLast (Option.mem_def.mpr hc)
      exact pySpace_false_of_digitdot c (hdd2 c (hcl ▸ List.getLast_mem hne))
  have htk : (" AZ: ".toList ++ d2).takeWhile isDigitDot = ([] : Bytes) := rfl
  have hdr : (" AZ: ".toList ++ d2).dropWhile isDigitDot = " AZ: ".toList ++ d2 := rfl
  have hp : parseAltAz "ALT: ".toList ("ALT: ".toList ++ d1 ++ " AZ: ".toList ++ d2) =
      some (d1, d2) := by
    unfold parseAltAz
    rw [List.append_assoc, List.append_assoc, matchLit_append]
    simp only [takeWhile_append_all isDigitDot d1 _ hdd1,
      dropWhile_append_all isDigitDot d1 _ hdd1, htk, hdr, List.append_nil,
      matchLit_append, takeWhile_eq_self_all isDigitDot d2 hdd2]
    rw [if_neg hne1, if_neg hne2]
  have hg : posGrammar ("ALT: ".toList ++ d1 ++ " AZ: ".toList ++ d2) = some (d1, d2) := by
    unfold posGrammar
    rw [hp]
  exact get_position_run _ rest d1 d2 a z s hopen hnl hinp (by rw [hstrip]; exact hg) ha hz

/-- Witness for C5: the representations `45.0` and `90.0` of `45` and `90`
format to `ALT: 45.0 AZ: 90.0`, which parses back to `(45, 90)`. -/
theorem position_format_parse_roundtrip_witness :
    get_position ⟨("ALT: ".toList ++ "45.0".toList ++ " AZ: ".toList ++ "90.0".toList)
        ++ '\n' :: [], [], false, 0⟩ =
      .ok (45, 90) ⟨[], "GET_POS\n".toList, false, 1⟩ := by
  have h := position_format_parse_roundtrip "45.0".toList "90.0".toList [] 45 90
    ⟨("ALT: ".toList ++ "45.0".toList ++ " AZ: ".toList ++ "90.0".toList) ++ '\n' :: [],
      [], false, 0⟩ rfl (by decide) (by decide) rfl
  exact h.trans (by decide)

end MicroMONET
